import Mathlib

/-!
Formal model of the `mastra-af-letta` package: validation of Letta `.af`
(Agent File) documents and bidirectional conversion to and from the Mastra
host agent shape.

The development shallowly embeds the TypeScript sources:
  * `src/schema.ts`  — Zod validators for the `.af` document,
  * `src/import.ts`  — `importAfAgent` and its tool/memory converters,
  * `src/export.ts`  — `exportMastraAgent` and its converters.

Conventions of the embedding:
  * JavaScript objects are association lists `List (String × _)`; assignment
    `obj[k] = v` is `objSet` (keeps the original key position, else appends).
  * `undefined`/absent fields are `Option.none`; JavaScript truthiness of an
    optional string (`undefined` and `""` are falsy) is `jsTruthyOptStr`.
  * Free-form `Record<string, unknown>` metadata whose values the code only
    passes through opaquely is modelled as `List (String × String)`.
  * Numbers are `Int` (no claim under scrutiny depends on non-integral or
    NaN behaviour).
  * Wall-clock values (`new Date()`) and `process.env` reads are passed as
    explicit parameters where the code's output depends on them, and omitted
    from result records where no theorem observes them.
  * A JavaScript runtime exception is an `Except.error` value.
-/

set_option linter.unusedVariables false

namespace AfMastra

/-! ## JavaScript-flavoured helpers -/

/-- Infix (substring) search on character lists, used to model
JavaScript `String.prototype.includes`. -/
def listHasInfix : List Char → List Char → Bool
  | _, [] => true
  | [], _ :: _ => false
  | c :: rest, p :: ps => (p :: ps).isPrefixOf (c :: rest) || listHasInfix rest (p :: ps)

/-- `strHasSub s pat` models JavaScript `s.includes(pat)`. -/
def strHasSub (s pat : String) : Bool := listHasInfix s.data pat.data

/-- JavaScript `v || d` for an optional string `v`: both `undefined` and the
empty string are falsy and fall through to the default. -/
def jsOrString (v : Option String) (d : String) : String :=
  match v with
  | some s => if s = "" then d else s
  | none => d

/-- JavaScript truthiness of an optional string: `undefined` and `""` are
falsy, every other string is truthy. -/
def jsTruthyOptStr : Option String → Bool
  | some s => s ≠ ""
  | none => false

/-- JavaScript object assignment `obj[k] = v` on an association list: an
existing key keeps its position and is overwritten, a new key is appended
(JS objects preserve insertion order for string keys). -/
def objSet {α : Type} : List (String × α) → String → α → List (String × α)
  | [], k, v => [(k, v)]
  | (k0, v0) :: rest, k, v =>
    if k0 = k then (k, v) :: rest else (k0, v0) :: objSet rest k v

/-- JavaScript `arr.slice(-k)`: the last `k` elements, except that
`slice(-0)` is `slice(0)`, the whole array. -/
def jsSliceLast {α : Type} (l : List α) (k : Nat) : List α :=
  if k = 0 then l else l.drop (l.length - k)

/-! ## Data model of the `.af` document (src/types.ts, src/schema.ts)

The Lean input types represent documents that are already well-typed JSON
of the expected field layout; the validators below check the value-level
constraints (non-emptiness, ranges, presence, cross references).  Where the
claims depend on a shape variance occurring in the wild (core memory as
mapping vs list, tool-rule content as string vs configuration object) the
variance is represented explicitly. -/

/-- One structured validation failure: a field path plus the human-readable
message, mirroring one entry of a `ZodError`'s issue list (numeric path
components are stringified). -/
structure ZodIssue where
  path : List String
  message : String
deriving Repr, DecidableEq

/-- Tool `type` enum of `toolTypeSchema`. -/
inductive AfToolType where
  | python
  | javascript
  | json_schema
deriving Repr, DecidableEq

/-- Wire spelling of a tool type, as interpolated into warning messages. -/
def AfToolType.wire : AfToolType → String
  | .python => "python"
  | .javascript => "javascript"
  | .json_schema => "json_schema"

/-- Message `role` enum of `messageRoleSchema`. -/
inductive MessageRole where
  | user
  | assistant
  | system
  | tool
deriving Repr, DecidableEq

/-! Recursive JSON-Schema-shaped parameter property
(`parameterPropertySchema`); `properties` is a record of further
properties, `items` a nested property.  `enum` values are opaque literals
in the source (`z.array(z.unknown())`); they are modelled as strings.  The
record is a dedicated list-like type so that the recursion stays
structural. -/
mutual
inductive AfParameterProperty : Type where
  | mk (type : String) (description : Option String) (enumVals : Option (List String))
       (items : Option AfParameterProperty) (properties : Option AfParameterProps)
deriving Repr
inductive AfParameterProps : Type where
  | nil
  | cons (key : String) (val : AfParameterProperty) (rest : AfParameterProps)
deriving Repr
end

/-- `toolParametersSchema`: the wire `type` field is the literal
`"object"` (enforced by this very shape), `properties` a record of
parameter properties. -/
structure AfToolParameters where
  properties : AfParameterProps
  required : Option (List String) := none
  additionalProperties : Option Bool := none
deriving Repr

/-- Auth provider enum of `authReferenceSchema`. -/
inductive AuthProvider where
  | env
  | vault
  | oauth2
  | keychain
  | dynamic
deriving Repr, DecidableEq

/-- `auth_type` enum inside an auth reference's metadata. -/
inductive AuthKind where
  | bearer
  | api_key
  | oauth2
  | basic
  | custom
deriving Repr, DecidableEq

/-- Metadata block of an auth reference. -/
structure AuthMetadata where
  auth_type : Option AuthKind := none
  required_scopes : Option (List String) := none
  expires_in : Option Int := none
  prompt : Option String := none
  cache_duration : Option Int := none
deriving Repr, DecidableEq

/-- `authReferenceSchema`: an opaque credential pointer, never a secret. -/
structure AuthReference where
  provider : AuthProvider
  config_id : String
  metadata : Option AuthMetadata := none
deriving Repr, DecidableEq

/-- Tag of `mastraToolMetadataSchema`'s union. -/
inductive MastraToolType where
  | mcp
  | url
  | reference
deriving Repr, DecidableEq

/-- Wire spelling of a Mastra tool metadata tag. -/
def MastraToolType.wire : MastraToolType → String
  | .mcp => "mcp"
  | .url => "url"
  | .reference => "reference"

/-- MCP transport enum. -/
inductive McpTransport where
  | stdio
  | http
deriving Repr, DecidableEq

/-- HTTP method enum for url-type tools. -/
inductive HttpMethod where
  | GET
  | POST
deriving Repr, DecidableEq

/-- The `_mastra_tool` extension block carried inside a tool's metadata
(`mastraToolMetadataSchema`), with the snake_case wire field names. -/
structure MastraToolMetadata where
  type : MastraToolType
  server : Option String := none
  tool_name : Option String := none
  transport : Option McpTransport := none
  endpoint : Option String := none
  method : Option HttpMethod := none
  auth_ref : Option AuthReference := none
deriving Repr, DecidableEq

/-- A tool's free-form metadata record: the namespaced `_mastra_tool` key
plus any other (opaque) entries. -/
structure AfToolMetadata where
  mastra_tool : Option MastraToolMetadata := none
  extra : List (String × String) := []
deriving Repr, DecidableEq

/-- `toolSchema`'s field layout. -/
structure AfTool where
  name : String
  description : String
  type : AfToolType
  parameters : AfToolParameters
  source_code : Option String := none
  metadata : Option AfToolMetadata := none
deriving Repr

/-- The content slot of a tool rule as it occurs in the wild: either a
`rule_content` string, or a structured `configuration` object in place of
any `rule_content` key (the shape used by the repository's own fixtures). -/
inductive ToolRuleContent where
  | ruleContentStr (s : String)
  | configObject (fields : List (String × String))
deriving Repr, DecidableEq

/-- A tool rule with its content in either wild shape. -/
structure AfToolRule where
  tool_name : String
  rule_type : String
  content : ToolRuleContent
deriving Repr, DecidableEq

/-- `coreMemoryBlockSchema`: one persistent memory block. -/
structure AfCoreMemoryBlock where
  label : String
  value : String
  character_limit : Option Int := none
  metadata : Option (List (String × String)) := none
deriving Repr, DecidableEq

/-- The two wild representations of `core_memory`: a label-keyed mapping
(the shape `afAgentSchema` validates) and an ordered list of blocks (the
shape the export converter emits and the test fixtures use). -/
inductive CoreMemoryRepr where
  | mapping (entries : List (String × AfCoreMemoryBlock))
  | list (blocks : List AfCoreMemoryBlock)
deriving Repr, DecidableEq

/-- `toolCallSchema` (arguments are opaque to every claim, kept as an
opaque record). -/
structure AfToolCall where
  id : String
  name : String
  arguments : List (String × String) := []
  metadata : Option (List (String × String)) := none
deriving Repr, DecidableEq

/-- `toolResultSchema` (`result` is an arbitrary JSON value in the source,
opaque to every claim). -/
structure AfToolResult where
  id : String
  name : String
  result : Option String := none
  error : Option String := none
  metadata : Option (List (String × String)) := none
deriving Repr, DecidableEq

/-- `messageSchema`: one conversation message. -/
structure AfMessage where
  id : String
  role : MessageRole
  text : String
  timestamp : String
  tool_calls : Option (List AfToolCall) := none
  tool_results : Option (List AfToolResult) := none
  metadata : Option (List (String × String)) := none
deriving Repr, DecidableEq

/-- `llmConfigSchema`'s runtime value as the import converter consumes it:
`provider` and `model` plus the passthrough provider-specific fields
(`{ provider, model, ...params }` destructuring); the numeric knobs are
among `params` and are opaque to every claim. -/
structure AfLLMConfig where
  provider : String
  model : String
  params : List (String × String) := []
deriving Repr, DecidableEq

/-- The runtime document value handed to `importAfAgent` (a parsed
`AfAgentSchema`).  `core_memory` keeps its runtime representation, since
the import converter's behaviour differs between mapping and list. -/
structure AfAgentDoc where
  agent_type : String
  name : String
  description : Option String := none
  system : String
  llm_config : Option AfLLMConfig := none
  core_memory : CoreMemoryRepr
  messages : List AfMessage := []
  in_context_message_indices : Option (List Int) := none
  tools : List AfTool := []
  tool_rules : Option (List AfToolRule) := none
  version : String
  created_at : String
  updated_at : String
deriving Repr

/-! ## Schema validators (src/schema.ts)

Each validator returns the list of issues the corresponding Zod schema
fragment produces, with paths relative to the document root for
document-level fields.  Zod runs a `.refine` only when the underlying
parse succeeded; the validators mirror that gating. -/

/-- `coreMemoryBlockSchema`: label must be non-empty, `character_limit`
positive when present.  Paths are relative to the block. -/
def validateCoreMemoryBlock (b : AfCoreMemoryBlock) : List ZodIssue :=
  (if b.label.length ≥ 1 then [] else [⟨["label"], "Memory block label is required"⟩]) ++
  (match b.character_limit with
   | some n => if n > 0 then [] else [⟨["character_limit"], "Character limit must be positive"⟩]
   | none => [])

/-- The `core_memory` field of `afAgentSchema`:
`z.record(coreMemoryBlockSchema).refine(m => m.persona && m.human, ...)`.
`z.record` rejects an array outright with an invalid-type issue
(`Expected object, received array`); only on a mapping are the blocks
validated and, if they all pass, the persona/human refinement checked. -/
def validateCoreMemory : CoreMemoryRepr → List ZodIssue
  | .list _ => [⟨["core_memory"], "Expected object, received array"⟩]
  | .mapping entries =>
    let blockIssues := entries.flatMap
      (fun kv => (validateCoreMemoryBlock kv.2).map
        (fun i => ⟨"core_memory" :: kv.1 :: i.path, i.message⟩))
    if blockIssues.isEmpty then
      if (entries.any (fun kv => kv.1 = "persona")) && (entries.any (fun kv => kv.1 = "human")) then
        []
      else
        [⟨["core_memory"], "Core memory must contain at least persona and human blocks"⟩]
    else blockIssues

/-! Recursive validation of `parameterPropertySchema`: `type` must be a
non-empty string at every node; `items` and `properties` recurse.  The
record branch emits paths `properties.<key>...` exactly as Zod does. -/
mutual
def validateParameterProperty : AfParameterProperty → List ZodIssue
  | .mk t _ _ items props =>
    (if t.length ≥ 1 then [] else [⟨["type"], "Parameter type is required"⟩]) ++
    (match items with
     | none => []
     | some p => (validateParameterProperty p).map (fun i => ⟨"items" :: i.path, i.message⟩)) ++
    (match props with
     | none => []
     | some l => validateParameterProps l)
def validateParameterProps : AfParameterProps → List ZodIssue
  | .nil => []
  | .cons k v rest =>
    (validateParameterProperty v).map (fun i => ⟨"properties" :: k :: i.path, i.message⟩) ++
    validateParameterProps rest
end

/-- `toolParametersSchema`: the `type: "object"` literal is enforced by
the embedding's shape; `required` and `additionalProperties` carry no
value-level constraint, so validation is the recursive check of
`properties`. -/
def validateToolParameters (p : AfToolParameters) : List ZodIssue :=
  validateParameterProps p.properties

/-- `authReferenceSchema`: `config_id` non-empty; positive `expires_in`
and non-negative `cache_duration` when present. -/
def validateAuthReference (a : AuthReference) : List ZodIssue :=
  (if a.config_id.length ≥ 1 then [] else [⟨["config_id"], "Configuration ID is required"⟩]) ++
  (match a.metadata with
   | none => []
   | some md =>
     (match md.expires_in with
      | some n => if n > 0 then [] else [⟨["metadata", "expires_in"], "Expiration must be positive"⟩]
      | none => []) ++
     (match md.cache_duration with
      | some n => if n ≥ 0 then [] else [⟨["metadata", "cache_duration"], "Cache duration must be non-negative"⟩]
      | none => []))

/-- Model of `z.string().url()`: the source defers to the WHATWG URL
parser; the model only demands a scheme separator, which agrees with the
parser on every input appearing in this development. -/
def jsUrlOk (s : String) : Bool := strHasSub s "://"

/-- `mastraToolMetadataSchema`: URL-shaped fields when present, a valid
nested auth reference, and then the refinement requiring `server` and
`tool_name` for `mcp` and `endpoint` for `url` (truthiness checks, so an
empty string also fails).  The refinement runs only when the base object
parse produced no issue. -/
def validateMastraToolMetadata (m : MastraToolMetadata) : List ZodIssue :=
  let base :=
    (match m.server with
     | some s => if jsUrlOk s then [] else [⟨["server"], "Server must be a valid URL"⟩]
     | none => []) ++
    (match m.endpoint with
     | some s => if jsUrlOk s then [] else [⟨["endpoint"], "Endpoint must be a valid URL"⟩]
     | none => []) ++
    (match m.auth_ref with
     | some a => (validateAuthReference a).map (fun i => ⟨"auth_ref" :: i.path, i.message⟩)
     | none => [])
  if base.isEmpty then
    if (match m.type with
        | .mcp => jsTruthyOptStr m.server && jsTruthyOptStr m.tool_name
        | .url => jsTruthyOptStr m.endpoint
        | .reference => true) then
      []
    else
      [⟨[], "MCP tools require server and tool_name, URL tools require endpoint"⟩]
  else base

/-- Base (pre-refinement) validation of `toolSchema`: non-empty name and
description, valid parameters, and — via the field-level refinement of the
`metadata` field — a structurally valid `_mastra_tool` block when that key
is present (reported as a single issue at the metadata path, mirroring
`safeParse(...).success`). -/
def validateToolBase (t : AfTool) : List ZodIssue :=
  (if t.name.length ≥ 1 then [] else [⟨["name"], "Tool name is required"⟩]) ++
  (if t.description.length ≥ 1 then [] else [⟨["description"], "Tool description is required"⟩]) ++
  (validateToolParameters t.parameters).map (fun i => ⟨"parameters" :: i.path, i.message⟩) ++
  (match t.metadata with
   | some md =>
     match md.mastra_tool with
     | some m =>
       if (validateMastraToolMetadata m).isEmpty then []
       else [⟨["metadata"], "Invalid _mastra_tool metadata structure"⟩]
     | none => []
   | none => [])

/-- The object-level refinement of `toolSchema`: a `python` or
`javascript` tool whose `source_code` is falsy (absent or the empty
string) is rejected with an issue at path `source_code`. -/
def sourceCodeRuleViolated (t : AfTool) : Bool :=
  (t.type == AfToolType.python || t.type == AfToolType.javascript) &&
    !(jsTruthyOptStr t.source_code)

/-- Full `toolSchema` validation: the refinement runs only when the base
parse succeeded. -/
def validateTool (t : AfTool) : List ZodIssue :=
  let base := validateToolBase t
  if base.isEmpty then
    if sourceCodeRuleViolated t then
      [⟨["source_code"], "Source code is required for python and javascript tool types"⟩]
    else []
  else base

/-- `toolRuleSchema`: `tool_name` and `rule_type` non-empty, and
`rule_content` must be present and a non-empty string.  A producer that
emits a structured `configuration` object carries no `rule_content` key at
all, so Zod reports the missing required string (`Required`). -/
def validateToolRule (r : AfToolRule) : List ZodIssue :=
  (if r.tool_name.length ≥ 1 then [] else [⟨["tool_name"], "Tool name is required"⟩]) ++
  (if r.rule_type.length ≥ 1 then [] else [⟨["rule_type"], "Rule type is required"⟩]) ++
  (match r.content with
   | .ruleContentStr s => if s.length ≥ 1 then [] else [⟨["rule_content"], "Rule content is required"⟩]
   | .configObject _ => [⟨["rule_content"], "Required"⟩])

/-- Per-element issues of
`z.array(z.number().nonnegative('Message index must be non-negative'))`,
with the element position in the path (stringified). -/
def indexElementIssues : Nat → List Int → List ZodIssue
  | _, [] => []
  | i, idx :: rest =>
    (if idx < 0 then
       [⟨["in_context_message_indices", toString i], "Message index must be non-negative"⟩]
     else []) ++
    indexElementIssues (i + 1) rest

/-- The `in_context_message_indices` fragment of `afAgentSchema`: the
per-element non-negativity check, then — only when that passed — the
object-level refinement `every(idx => idx <= messages.length - 1)` with
its fixed message and path (an absent field skips everything; an empty
array passes). -/
def validateInContextIndices (indices : Option (List Int)) (numMessages : Nat) : List ZodIssue :=
  match indices with
  | none => []
  | some idxs =>
    let elementIssues := indexElementIssues 0 idxs
    if elementIssues.isEmpty then
      if idxs.all (fun idx => idx ≤ (numMessages : Int) - 1) then []
      else
        [⟨["in_context_message_indices"],
          "in_context_message_indices contains out-of-range message references"⟩]
    else elementIssues

/-! ## Import converter (src/import.ts)

The Mastra side of the conversion.  A Zod schema value is modelled as a
tree of tagged nodes mirroring the `_def.typeName` discrimination the
export converter performs; `ZodNode.other` covers every further Zod type
(e.g. `z.any()`, whose type name is `ZodAny`), and `ZodNode.nonZod`
represents a value without a `_def` slot (not a Zod schema at all). -/

mutual
inductive ZodNode : Type where
  | zobject (shape : ZodShape)
  | zstring
  | znumber
  | zboolean
  | zarray (elem : ZodNode)
  | zenum (values : List String)
  | zoptional (inner : ZodNode)
  | other (typeName : String)
  | nonZod
deriving Repr
inductive ZodShape : Type where
  | nil
  | cons (key : String) (val : ZodNode) (rest : ZodShape)
deriving Repr
end

/-- The `_def.typeName` of a node, as the export converter reads it.  A
`nonZod` value has no `_def`; the converter's type dispatch never reaches
this accessor for such a value. -/
def zodTypeName : ZodNode → String
  | .zobject _ => "ZodObject"
  | .zstring => "ZodString"
  | .znumber => "ZodNumber"
  | .zboolean => "ZodBoolean"
  | .zarray _ => "ZodArray"
  | .zenum _ => "ZodEnum"
  | .zoptional _ => "ZodOptional"
  | .other s => s
  | .nonZod => ""

/-! `createZodSchemaFromProperty` and the shape-building loop of
`createZodSchemaFromJsonSchema`.  The `object` property branch of the
source calls `createZodSchemaFromJsonSchema(prop)` where `prop.required`
is undefined, which reduces to building the shape with every field left
required; that call is inlined here to keep the recursion structural.
`describe` only annotates a node and is not represented. -/
mutual
def createZodSchemaFromProperty : AfParameterProperty → ZodNode
  | .mk t _ enumVals items props =>
    if t = "string" then
      match enumVals with
      | some vs => .zenum vs
      | none => .zstring
    else if t = "number" then .znumber
    else if t = "boolean" then .zboolean
    else if t = "array" then
      match items with
      | some p => .zarray (createZodSchemaFromProperty p)
      | none => .zarray (.other "ZodAny")
    else if t = "object" then
      -- createZodSchemaFromJsonSchema(prop): `prop.properties || {}`, required undefined
      match props with
      | some l => .zobject (buildZodShape l)
      | none => .zobject .nil
    else .other "ZodAny"
def buildZodShape : AfParameterProps → ZodShape
  | .nil => .nil
  | .cons k v rest => .cons k (createZodSchemaFromProperty v) (buildZodShape rest)
end

/-- The required-field pass of `createZodSchemaFromJsonSchema`: every
shape entry whose key is not listed in `required` is wrapped in
`.optional()`. -/
def markOptionalShape (shape : ZodShape) (required : List String) : ZodShape :=
  match shape with
  | .nil => .nil
  | .cons k v rest =>
    .cons k (if required.contains k then v else .zoptional v) (markOptionalShape rest required)

/-- `createZodSchemaFromJsonSchema` on a tool's parameter schema: the
`type` is the literal `"object"` (so the non-object `z.any()` fallback is
unreachable from this entry point); when a `required` array is present the
unlisted fields are wrapped optional, otherwise every field stays
required. -/
def createZodSchemaFromJsonSchema (jsonSchema : AfToolParameters) : ZodNode :=
  let shape := buildZodShape jsonSchema.properties
  match jsonSchema.required with
  | some req => .zobject (markOptionalShape shape req)
  | none => .zobject shape

/-- Severity of an import warning. -/
inductive Severity where
  | info
  | warning
  | error
deriving Repr, DecidableEq

/-- One import warning (`AfImportWarning`). -/
structure AfImportWarning where
  field : String
  reason : String
  severity : Severity
deriving Repr, DecidableEq

/-- The strategy for tools carrying source code. -/
inductive ToolCodeStrategy where
  | skip
  | stub
  | schemaOnly
deriving Repr, DecidableEq

/-- Behaviour of a host tool's `execute` handler, as far as the source
defines one: the stub's handler is `async () => { throw new Error(msg) }`,
an unconditional throw of the recorded message. -/
inductive ExecSpec where
  | throwsError (msg : String)
deriving Repr

/-- The `_mcpMetadata` expando object `convertMcpTool` attaches to a host
tool: note the camelCase `toolName` and `authRef` fields it introduces in
place of the wire's `tool_name` and `auth_ref`. -/
structure McpStoredMetadata where
  type : MastraToolType
  server : Option String := none
  toolName : Option String := none
  transport : Option McpTransport := none
  authRef : Option AuthReference := none
  endpoint : Option String := none
  method : Option HttpMethod := none
deriving Repr, DecidableEq

/-- A Mastra host tool (`ToolAction`) as this package constructs and
consumes it: id, description, input-validation schema, optional execute
handler, and the optional `_mcpMetadata` expando. -/
structure ToolAction where
  id : String
  description : Option String := none
  inputSchema : Option ZodNode := none
  execute : Option ExecSpec := none
  mcpMetadata : Option McpStoredMetadata := none
deriving Repr

/-- `convertMcpTool`: schema from the parameters, no execute handler, and
the metadata re-keyed into the camelCase `_mcpMetadata` object. -/
def convertMcpTool (tool : AfTool) (metadata : MastraToolMetadata) : ToolAction :=
  { id := tool.name
    description := some tool.description
    inputSchema := some (createZodSchemaFromJsonSchema tool.parameters)
    execute := none
    mcpMetadata := some
      { type := metadata.type
        server := metadata.server
        toolName := metadata.tool_name
        transport := metadata.transport
        authRef := metadata.auth_ref
        endpoint := metadata.endpoint
        method := metadata.method } }

/-- `convertSchemaOnlyTool`: schema, no execute handler. -/
def convertSchemaOnlyTool (tool : AfTool) : ToolAction :=
  { id := tool.name
    description := some tool.description
    inputSchema := some (createZodSchemaFromJsonSchema tool.parameters)
    execute := none
    mcpMetadata := none }

/-- Result of `handleSourceCodeTool`: an optional host tool plus an
optional warning. -/
structure SourceCodeToolResult where
  tool : Option ToolAction := none
  warning : Option AfImportWarning := none
deriving Repr

/-- `handleSourceCodeTool`: dispatch on the tool-code strategy.  `skip`
yields no tool and an info warning; `stub` yields a tool whose execute
handler unconditionally throws, plus a warning; `schema-only` (also the
switch's default arm) yields a schema-only tool plus an info warning. -/
def handleSourceCodeTool (tool : AfTool) (strategy : ToolCodeStrategy) : SourceCodeToolResult :=
  match strategy with
  | .skip =>
    { tool := none
      warning := some
        { field := s!"tools.{tool.name}"
          reason := s!"Tool with {tool.type.wire} source code skipped"
          severity := .info } }
  | .stub =>
    { tool := some
        { id := tool.name
          description := some (tool.description ++ " (stub - source code not imported)")
          inputSchema := some (createZodSchemaFromJsonSchema tool.parameters)
          execute := some (.throwsError s!"Tool {tool.name} is a stub - source code was not imported")
          mcpMetadata := none }
      warning := some
        { field := s!"tools.{tool.name}"
          reason := s!"Created stub for {tool.type.wire} tool"
          severity := .warning } }
  | .schemaOnly =>
    { tool := some (convertSchemaOnlyTool tool)
      warning := some
        { field := s!"tools.{tool.name}"
          reason := s!"Tool imported without {tool.type.wire} source code"
          severity := .info } }

/-- The accumulating result of `convertTools`: the `ToolsInput` record of
converted host tools plus the warnings. -/
structure ConvertToolsResult where
  tools : List (String × ToolAction) := []
  warnings : List AfImportWarning := []
deriving Repr

/-- `convertTools`: for each tool, an `_mastra_tool` metadata block wins,
then a truthy `source_code` dispatches on the strategy, else the tool is
converted schema-only.  (The source wraps each iteration in a `try/catch`
that downgrades an exception to an error warning; no branch of the
embedded converters throws, so the catch arm is dead here.) -/
def convertTools (tools : List AfTool) (strategy : ToolCodeStrategy) : ConvertToolsResult :=
  tools.foldl
    (fun acc tool =>
      let mcpMetadata := tool.metadata.bind (·.mastra_tool)
      match mcpMetadata with
      | some m => { acc with tools := objSet acc.tools tool.name (convertMcpTool tool m) }
      | none =>
        if jsTruthyOptStr tool.source_code then
          let result := handleSourceCodeTool tool strategy
          { tools := match result.tool with
              | some t => objSet acc.tools tool.name t
              | none => acc.tools
            warnings := acc.warnings ++ result.warning.toList }
        else
          { acc with tools := objSet acc.tools tool.name (convertSchemaOnlyTool tool) })
    {}

/-- The static model object `convertLLMConfig` produces by default:
`{ provider, name: model, ...params }`. -/
structure MastraModelOut where
  provider : String
  name : String
  params : List (String × String) := []
deriving Repr, DecidableEq

/-- `convertLLMConfig`: a custom mapping entry for the provider takes
precedence; otherwise the static passthrough object. -/
def convertLLMConfig (llmConfig : AfLLMConfig)
    (customMapping : List (String × (AfLLMConfig → MastraModelOut))) : MastraModelOut :=
  match customMapping.lookup llmConfig.provider with
  | some f => f llmConfig
  | none => { provider := llmConfig.provider, name := llmConfig.model, params := llmConfig.params }

/-- A working-memory entry value (`Record<string, any>` on the host
side): a bare scalar, or a structured object with optional `value`,
`characterLimit` and `metadata` fields. -/
inductive WMPrim where
  | strV (s : String)
  | numV (n : Int)
  | boolV (b : Bool)
deriving Repr, DecidableEq

/-- JavaScript truthiness of a primitive: `""`, `0` and `false` are
falsy. -/
def jsTruthyPrim : WMPrim → Bool
  | .strV s => s ≠ ""
  | .numV n => n ≠ 0
  | .boolV b => b

/-- JavaScript `String(v)` on a primitive. -/
def jsStringOfPrim : WMPrim → String
  | .strV s => s
  | .numV n => toString n
  | .boolV b => if b then "true" else "false"

/-- A working-memory entry: either a bare scalar or a structured object
(`{value, characterLimit, metadata}`); `typeof` is `"object"` exactly for
the structured form. -/
inductive WMEntry where
  | scalar (v : WMPrim)
  | objVal (value : Option WMPrim) (characterLimit : Option Int)
           (metadata : Option (List (String × String)))
deriving Repr, DecidableEq

/-- `convertCoreMemory`: each block (of the list form the converter was
written for) becomes a structured working-memory entry keyed by label,
later labels overwriting earlier ones. -/
def convertCoreMemory (blocks : List AfCoreMemoryBlock) : List (String × WMEntry) :=
  blocks.foldl
    (fun wm block =>
      objSet wm block.label (.objVal (some (.strV block.value)) block.character_limit block.metadata))
    []

/-- The metadata slot of a host chat turn.  The import converter fills the
four fixed fields; host-made turns may carry any subset.  (The source
builds this slot as `{id, timestamp, toolCalls, toolResults,
...msg.metadata}`; a spread entry coinciding with a fixed key is not
observed by any claim and is kept in `extra`.) -/
structure TurnMetadata where
  id : Option String := none
  timestamp : Option String := none
  toolCalls : Option (List AfToolCall) := none
  toolResults : Option (List AfToolResult) := none
  extra : List (String × String) := []
deriving Repr, DecidableEq

/-- `Object.keys(metadata).length > 0` on a turn-metadata slot. -/
def TurnMetadata.hasKeys (m : TurnMetadata) : Bool :=
  m.id.isSome || m.timestamp.isSome || m.toolCalls.isSome || m.toolResults.isSome ||
    !m.extra.isEmpty

/-- One host chat turn of `MastraMemoryConfig.messages`. -/
structure MastraMessage where
  role : MessageRole
  content : String
  metadata : Option TurnMetadata := none
deriving Repr, DecidableEq

/-- `convertMessages`: text becomes the turn content; id, timestamp, tool
calls and tool results move into the turn's metadata slot. -/
def convertMessages (messages : List AfMessage) : List MastraMessage :=
  messages.map (fun msg =>
    { role := msg.role
      content := msg.text
      metadata := some
        { id := some msg.id
          timestamp := some msg.timestamp
          toolCalls := msg.tool_calls
          toolResults := msg.tool_results
          extra := msg.metadata.getD [] } })

/-- The simplified host memory shape (`MastraMemoryConfig`). -/
structure MastraMemoryConfig where
  workingMemory : Option (List (String × WMEntry)) := none
  messages : Option (List MastraMessage) := none
deriving Repr, DecidableEq

/-- The guard `afAgent.core_memory && afAgent.core_memory.length > 0` of
`importAfAgent`: on the mapping representation (the shape `afAgentSchema`
accepts) a plain object has no `length` property, so the comparison reads
`undefined > 0`, which is false; only the list representation can pass. -/
def coreMemoryLengthPositive : CoreMemoryRepr → Bool
  | .mapping _ => false
  | .list blocks => blocks.length > 0

/-- Lines 167–187 of `importAfAgent`: the memory config plus the warnings
they emit.  `convertCoreMemory` is reached only through the length guard,
hence only ever with the list representation.  The in-context-indices
warning fires only inside the message block (messages present and
requested) and on a present indices field (arrays, even empty, are
truthy). -/
def buildMemoryConfig (afAgent : AfAgentDoc) (includeMessages : Bool) :
    MastraMemoryConfig × List AfImportWarning :=
  let memoryConfig : MastraMemoryConfig := {}
  let memoryConfig :=
    if coreMemoryLengthPositive afAgent.core_memory then
      { memoryConfig with
        workingMemory := some (convertCoreMemory
          (match afAgent.core_memory with | .list bs => bs | .mapping _ => [])) }
    else memoryConfig
  if includeMessages && afAgent.messages.length > 0 then
    ({ memoryConfig with messages := some (convertMessages afAgent.messages) },
     if afAgent.in_context_message_indices.isSome then
       [{ field := "in_context_message_indices"
          reason := "Context window management is automatic in Mastra"
          severity := .info }]
     else [])
  else (memoryConfig, [])

/-- A JavaScript runtime exception observable from the embedded code. -/
inductive JsRuntimeError where
  | referenceError (identifier : String)
deriving Repr, DecidableEq

/-- The partial Mastra agent config built by the import converter. -/
structure ImportedAgentConfig where
  name : String
  description : Option String := none
  instructions : String
  model : Option MastraModelOut := none
  tools : List (String × ToolAction) := []
deriving Repr

/-- Import result metadata (`importedAt`, a wall-clock `Date`, is omitted:
see `importAfAgent`, which never reaches the point of producing it). -/
structure AfImportResultMetadata where
  originalVersion : String
  lossyConversions : List String
  mcpTools : Nat
  standardTools : Nat
deriving Repr

/-- `AfImportResult`. -/
structure AfImportResult where
  agent : ImportedAgentConfig
  memory : MastraMemoryConfig
  warnings : List AfImportWarning
  metadata : AfImportResultMetadata
deriving Repr

/-- `AfImportOptions`; absent options fall back to the destructuring
defaults inside `importAfAgent`. -/
structure AfImportOptions where
  toolCodeStrategy : Option ToolCodeStrategy := none
  includeMessages : Option Bool := none
  validateMcpServers : Option Bool := none
  modelMapping : List (String × (AfLLMConfig → MastraModelOut)) := []

/-- `importAfAgent` (src/import.ts lines 121–206).  The body is embedded
statement for statement; at line 190 it evaluates
`Object.values(convertedTools)`, but `convertedTools` is not a binding of
this function — it is a local constant of `convertTools` — so execution
raises `ReferenceError: convertedTools is not defined` on every call,
before the result object of line 194 can be built. -/
def importAfAgent (afAgent : AfAgentDoc) (options : AfImportOptions) :
    Except JsRuntimeError AfImportResult :=
  let toolCodeStrategy := options.toolCodeStrategy.getD .schemaOnly
  let includeMessages := options.includeMessages.getD true
  let warnings : List AfImportWarning := []
  let lossyConversions : List String := []
  let agentConfig : ImportedAgentConfig :=
    { name := afAgent.name, description := afAgent.description, instructions := afAgent.system }
  let agentConfig :=
    match afAgent.llm_config with
    | some cfg => { agentConfig with model := some (convertLLMConfig cfg options.modelMapping) }
    | none => agentConfig
  let toolResults := convertTools afAgent.tools toolCodeStrategy
  let agentConfig := { agentConfig with tools := toolResults.tools }
  let warnings := warnings ++ toolResults.warnings
  let hasRules : Bool :=
    match afAgent.tool_rules with
    | some rs => decide (rs.length > 0)
    | none => false
  let warnings :=
    if hasRules then
      warnings ++
        [{ field := "tool_rules"
           reason := "Tool rules are not directly supported in Mastra. Consider implementing custom logic."
           severity := .warning }]
    else warnings
  let lossyConversions := if hasRules then lossyConversions ++ ["tool_rules"] else lossyConversions
  let memResult := buildMemoryConfig afAgent includeMessages
  let warnings := warnings ++ memResult.2
  -- Line 190: `const toolsArray = Object.values(convertedTools);`
  -- `convertedTools` is unbound here; the evaluation throws.
  Except.error (JsRuntimeError.referenceError "convertedTools")

/-! ## Export converter (src/export.ts) -/

/-! The JSON-Schema value `convertZodToJsonSchema` emits: a bare
`{type: t}`, a string type with an `enum` list, an array with `items`, or
an object with `properties` and a `required` list that is present exactly
when non-empty.  `properties` is a dedicated list-like record type to keep
recursion structural. -/
mutual
inductive JsonOut : Type where
  | simple (jtype : String)
  | strEnum (values : List String)
  | jarray (items : JsonOut)
  | jobject (properties : JsonProps) (required : Option (List String))
deriving Repr
inductive JsonProps : Type where
  | nil
  | cons (key : String) (val : JsonOut) (rest : JsonProps)
deriving Repr
end

/-- The keys of a shape whose node's `_def.typeName` does not contain
`"Optional"` — the required-field collection loop of the `ZodObject`
branch. -/
def zodShapeRequired : ZodShape → List String
  | .nil => []
  | .cons k v rest =>
    (if strHasSub (zodTypeName v) "Optional" then [] else [k]) ++ zodShapeRequired rest

/-! `convertZodToJsonSchema` (src/export.ts lines 272–331): a value
without a `_def` slot collapses to the empty object schema; otherwise the
switch on `_def.typeName` runs, whose `default` arm emits
`{type: "string"}` for every unrecognized type name. -/
mutual
def convertZodToJsonSchema : ZodNode → JsonOut
  | .nonZod => .jobject .nil none
  | .zobject shape =>
    let required := zodShapeRequired shape
    .jobject (convertZodShapeProps shape)
      (if required.length > 0 then some required else none)
  | .zstring => .simple "string"
  | .znumber => .simple "number"
  | .zboolean => .simple "boolean"
  | .zarray t => .jarray (convertZodToJsonSchema t)
  | .zenum vs => .strEnum vs
  | .zoptional inner => convertZodToJsonSchema inner
  | .other _ => .simple "string"
def convertZodShapeProps : ZodShape → JsonProps
  | .nil => .nil
  | .cons k v rest => .cons k (convertZodToJsonSchema v) (convertZodShapeProps rest)
end

/-- A tool of the exported document (`AfTool` as `convertMastraToolToAf`
builds it): `type` is always `"json_schema"`, and `metadata`, when the
host tool carried an `_mcpMetadata` expando, is the object
`{ _mastra_tool: mcpMetadata }` with that expando copied verbatim. -/
structure AfToolOut where
  name : String
  description : String
  type : String
  parameters : JsonOut
  metadata : Option McpStoredMetadata := none
deriving Repr

/-- `convertMastraToolToAf` (src/export.ts lines 249–266). -/
def convertMastraToolToAf (name : String) (tool : ToolAction) : AfToolOut :=
  { name := name
    description := jsOrString tool.description ""
    type := "json_schema"
    parameters :=
      match tool.inputSchema with
      | some z => convertZodToJsonSchema z
      | none => .jobject .nil none
    metadata := tool.mcpMetadata }

/-- `convertWorkingMemoryToCore` (src/export.ts lines 336–360): an entry
that is an object with a truthy `value` field contributes
value/characterLimit/metadata; every other entry — a bare scalar, but also
an object whose `value` is absent or falsy (for example the empty
string) — takes the simple branch, whose `String(data)` stringifies an
object to `"[object Object]"`. -/
def convertWorkingMemoryToCore : List (String × WMEntry) → List AfCoreMemoryBlock
  | [] => []
  | (label, data) :: rest =>
    (match data with
     | .objVal (some v) cl md =>
       if jsTruthyPrim v then
         { label := label, value := jsStringOfPrim v, character_limit := cl, metadata := md }
       else
         { label := label, value := "[object Object]" }
     | .objVal none _ _ =>
       { label := label, value := "[object Object]" }
     | .scalar v =>
       { label := label, value := jsStringOfPrim v }) ::
    convertWorkingMemoryToCore rest

/-- One exported message (`AfMessage` as `convertMastraMessageToAf`
builds it). -/
structure AfMessageOut where
  id : String
  role : MessageRole
  text : String
  timestamp : String
  tool_calls : Option (List AfToolCall) := none
  tool_results : Option (List AfToolResult) := none
  metadata : Option TurnMetadata := none
deriving Repr, DecidableEq

/-- `convertMastraMessageToAf` (src/export.ts lines 365–380): id and
timestamp from the turn's metadata slot when truthy, else synthesized
(sequential id, current time); the metadata slot itself is kept only when
it has keys. -/
def convertMastraMessageToAf (message : MastraMessage) (index : Nat) (now : String) :
    AfMessageOut :=
  let metadata := message.metadata.getD {}
  { id := jsOrString metadata.id s!"msg_{index}"
    role := message.role
    text := message.content
    timestamp := jsOrString metadata.timestamp now
    tool_calls := metadata.toolCalls
    tool_results := metadata.toolResults
    metadata :=
      match message.metadata with
      | none => none
      | some md => if md.hasKeys then some md else none }

/-- The host's behaviour-instruction value
(`DynamicArgument<string>` plus the defensive third arm of the source's
`typeof` chain): a static string, a function, or some other non-string
value. -/
inductive InstructionsVal where
  | str (s : String)
  | func
  | otherDynamic
deriving Repr, DecidableEq

/-- The host's model value as `convertModelToLLMConfig` inspects it: a
function, or a static object `{provider, name, ...params}` whose fields
may be missing. -/
inductive ModelArg where
  | func
  | obj (provider : Option String) (name : Option String) (params : List (String × String))
deriving Repr, DecidableEq

/-- The host's tools value (`DynamicArgument<ToolsInput>`): a function or
a static record of host tools. -/
inductive DynTools where
  | func
  | static (tools : List (String × ToolAction))
deriving Repr

/-- The exported `llm_config`: provider/model (with `"unknown"`
fallbacks), the `_dynamic` marker key (dropped from JSON when undefined)
and the spread passthrough params. -/
structure AfLLMConfigOut where
  provider : String
  model : String
  dynamicFlag : Option Bool := none
  params : List (String × String) := []
deriving Repr, DecidableEq

/-- `convertModelToLLMConfig` (src/export.ts lines 224–244): a function
value cannot be resolved and yields the default descriptor tagged
`_dynamic: true`; a static object is destructured with `"unknown"`
fallbacks for falsy provider/name. -/
def convertModelToLLMConfig : ModelArg → AfLLMConfigOut
  | .func =>
    { provider := "openai", model := "gpt-4", dynamicFlag := some true, params := [] }
  | .obj provider name params =>
    { provider := jsOrString provider "unknown"
      model := jsOrString name "unknown"
      dynamicFlag := none
      params := params }

/-- The `afMetadata` block a previous export may have stored inside the
host agent's metadata. -/
structure HostAfMetadata where
  agentType : Option String := none
  description : Option String := none
  createdAt : Option String := none
  tags : Option (List String) := none
deriving Repr, DecidableEq

/-- The host agent's metadata record: the `afMetadata` key plus the other
(opaque) entries. -/
structure HostMetadata where
  afMetadata : Option HostAfMetadata := none
  extra : List (String × String) := []
deriving Repr, DecidableEq

/-- The Mastra agent configuration as the export converter reads it. -/
structure MastraAgentConfig where
  name : String
  instructions : InstructionsVal
  model : Option ModelArg := none
  tools : Option DynTools := none
  metadata : Option HostMetadata := none

/-- A value of the exported document's free-form `metadata_` record. -/
inductive MetaVal where
  | boolVal (b : Bool)
  | strVal (s : String)
  | mastraExport (version : String) (exportedAt : String)
                 (dynamicInstructions : Bool) (mcpTools : Bool)
deriving Repr, DecidableEq

/-- The document value `exportMastraAgent` assembles and serializes.
Note that `core_memory` is emitted in the ordered-list representation. -/
structure AfAgentOut where
  agent_type : String
  name : String
  description : String
  system : String
  llm_config : Option AfLLMConfigOut := none
  core_memory : List AfCoreMemoryBlock := []
  messages : List AfMessageOut := []
  tools : List AfToolOut := []
  version : String
  created_at : String
  updated_at : String
  metadata_ : List (String × MetaVal) := []
  tags : Option (List String) := none
deriving Repr

/-- Export result metadata (`exportedAt` and `mastraVersion`, wall clock
and process environment, are omitted from the model). -/
structure AfExportMetadata where
  omittedFeatures : List String
  toolCount : Nat
  messageCount : Nat
deriving Repr, DecidableEq

/-- The export result: the source serializes `document` to the JSON text
`content` (pretty or compact); the serialization to text is pure
formatting and is not modelled. -/
structure AfExportResult where
  document : AfAgentOut
  metadata : AfExportMetadata
deriving Repr

/-- `AfExportOptions`; absent options fall back to the destructuring
defaults inside `exportMastraAgent`. -/
structure AfExportOptions where
  pretty : Option Bool := none
  includeMastraMetadata : Option Bool := none
  version : Option String := none
  includeMessages : Option Bool := none
  maxMessages : Option Nat := none
  agentType : Option String := none
deriving Repr, DecidableEq

/-- `exportMastraAgent` (src/export.ts lines 95–219).  `now` stands for
the single wall-clock read `new Date().toISOString()`, and
`envMastraVersion` for `process.env.MASTRA_VERSION`. -/
def exportMastraAgent (agent : MastraAgentConfig) (memory : Option MastraMemoryConfig)
    (options : AfExportOptions) (now : String) (envMastraVersion : Option String) :
    AfExportResult :=
  let includeMastraMetadata := options.includeMastraMetadata.getD true
  let version := options.version.getD "0.1.0"
  let includeMessages := options.includeMessages.getD true
  let maxMessages := options.maxMessages.getD 1000
  let agentType := options.agentType.getD "mastra"
  let omittedFeatures : List String := []
  let afMetadata := agent.metadata.bind (·.afMetadata)
  let afAgent : AfAgentOut :=
    { agent_type := jsOrString (afMetadata.bind (·.agentType)) agentType
      name := agent.name
      description := jsOrString (afMetadata.bind (·.description)) s!"Mastra agent: {agent.name}"
      system :=
        match agent.instructions with
        | .str s => s
        | .func => "Dynamic instructions (function - see metadata)"
        | .otherDynamic => "Dynamic instructions (see metadata)"
      llm_config :=
        match agent.model with
        | some m => some (convertModelToLLMConfig m)
        | none => none
      version := version
      created_at := jsOrString (afMetadata.bind (·.createdAt)) now
      updated_at := now }
  let isDynInstr : Bool := match agent.instructions with | .func => true | _ => false
  let afAgent :=
    if isDynInstr then
      { afAgent with
        metadata_ := objSet afAgent.metadata_ "mastra_dynamic_instructions" (.boolVal true) }
    else afAgent
  let omittedFeatures :=
    if isDynInstr then omittedFeatures ++ ["dynamic_instructions"] else omittedFeatures
  let toolsStep : AfAgentOut × List String :=
    match agent.tools with
    | none => (afAgent, omittedFeatures)
    | some .func => ({ afAgent with tools := [] }, omittedFeatures ++ ["dynamic_tools"])
    | some (.static ts) =>
      ({ afAgent with tools := ts.map (fun kv => convertMastraToolToAf kv.1 kv.2) },
       omittedFeatures)
  let afAgent := toolsStep.1
  let omittedFeatures := toolsStep.2
  let afAgent :=
    match memory with
    | none => afAgent
    | some mem =>
      let afAgent :=
        match mem.workingMemory with
        | some wm => { afAgent with core_memory := convertWorkingMemoryToCore wm }
        | none => afAgent
      match includeMessages, mem.messages with
      | true, some msgs =>
        let sliced := jsSliceLast msgs maxMessages
        { afAgent with messages := sliced.mapIdx (fun i m => convertMastraMessageToAf m i now) }
      | _, _ => afAgent
  let afAgent :=
    if includeMastraMetadata then
      { afAgent with
        metadata_ := objSet afAgent.metadata_ "mastra_export"
          (.mastraExport (jsOrString envMastraVersion "unknown") now isDynInstr
            (afAgent.tools.any (fun t => t.metadata.isSome))) }
    else afAgent
  let afAgent :=
    match afMetadata.bind (·.tags) with
    | some tags => { afAgent with tags := some tags }
    | none => afAgent
  let afAgent :=
    match agent.metadata with
    | some md =>
      if md.extra.length > 0 then
        { afAgent with
          metadata_ := md.extra.foldl (fun m kv => objSet m kv.1 (.strVal kv.2)) afAgent.metadata_ }
      else afAgent
    | none => afAgent
  { document := afAgent
    metadata :=
      { omittedFeatures := omittedFeatures
        toolCount := afAgent.tools.length
        messageCount := afAgent.messages.length } }

/-! ## JSON serialization of the `_mastra_tool` metadata objects

`JSON.stringify` drops keys whose value is `undefined` and keeps the
objects' insertion order; these functions compute the serialized key lists
of the wire metadata object and of the `_mcpMetadata` object built by
`convertMcpTool`, which is what an import → export round trip places under
`_mastra_tool`. -/

/-- Serialized key list of a wire `_mastra_tool` object whose keys were
written in the schema's field order. -/
def MastraToolMetadata.jsonKeys (m : MastraToolMetadata) : List String :=
  ["type"] ++
  (match m.server with | some _ => ["server"] | none => []) ++
  (match m.tool_name with | some _ => ["tool_name"] | none => []) ++
  (match m.transport with | some _ => ["transport"] | none => []) ++
  (match m.endpoint with | some _ => ["endpoint"] | none => []) ++
  (match m.method with | some _ => ["method"] | none => []) ++
  (match m.auth_ref with | some _ => ["auth_ref"] | none => [])

/-- Serialized key list of an `_mcpMetadata` object, in the insertion
order of the object literal in `convertMcpTool`. -/
def McpStoredMetadata.jsonKeys (m : McpStoredMetadata) : List String :=
  ["type"] ++
  (match m.server with | some _ => ["server"] | none => []) ++
  (match m.toolName with | some _ => ["toolName"] | none => []) ++
  (match m.transport with | some _ => ["transport"] | none => []) ++
  (match m.authRef with | some _ => ["authRef"] | none => []) ++
  (match m.endpoint with | some _ => ["endpoint"] | none => []) ++
  (match m.method with | some _ => ["method"] | none => [])

/-! ## Spec-side definition for the amended memory-export claim -/

/-- Amended per-entry specification of the working-memory export: an
object entry whose `value` field is present and truthy (a non-empty
string, non-zero number or `true`) contributes its value, character limit
and metadata; every other entry — a bare scalar, or an object whose
`value` is absent or falsy — contributes only the JavaScript
stringification of the entry itself. -/
def amendedMemoryBlockSpec : String × WMEntry → AfCoreMemoryBlock
  | (label, .objVal (some v) cl md) =>
    if jsTruthyPrim v then
      { label := label, value := jsStringOfPrim v, character_limit := cl, metadata := md }
    else
      { label := label, value := "[object Object]" }
  | (label, .objVal none _ _) => { label := label, value := "[object Object]" }
  | (label, .scalar v) => { label := label, value := jsStringOfPrim v }

/-! ## Concrete example inputs (used by the theorems below) -/

/-- The `persona` block of the spec's minimal document. -/
def personaBlock : AfCoreMemoryBlock :=
  { label := "persona", value := "I am a helpful AI assistant." }

/-- The `human` block of the spec's minimal document. -/
def humanBlock : AfCoreMemoryBlock :=
  { label := "human", value := "The user is interested in technology." }

/-- The spec's minimal valid document, with `core_memory` in the mapping
representation `afAgentSchema` accepts. -/
def minimalAgentDoc : AfAgentDoc :=
  { agent_type := "letta"
    name := "Minimal Agent"
    system := "You are a helpful assistant."
    llm_config := some { provider := "openai", model := "gpt-4" }
    core_memory := .mapping [("persona", personaBlock), ("human", humanBlock)]
    version := "0.1.0"
    created_at := "2024-01-01T00:00:00Z"
    updated_at := "2024-01-01T00:00:00Z" }

/-- An empty object parameter schema, `{type:"object", properties:{}}`. -/
def emptyParameters : AfToolParameters := { properties := .nil }

/-- The spec scenario's python tool with no `source_code`. -/
def calcTool : AfTool :=
  { name := "calc"
    description := "Perform calculations"
    type := .python
    parameters := emptyParameters }

/-- A `json_schema` tool without `source_code`. -/
def lookupTool : AfTool :=
  { name := "lookup"
    description := "Look up a record"
    type := .json_schema
    parameters := emptyParameters }

/-- A python tool carrying source code and no external metadata, for the
tool-code-strategy claim. -/
def calculateTool : AfTool :=
  { name := "calculate"
    description := "Evaluate a math expression"
    type := .python
    parameters := emptyParameters
    source_code := some "def calculate(expression): return eval(expression)" }

/-- The round-trip scenario's external-tool metadata,
`{type:"mcp", server:"https://x", tool_name:"search"}`. -/
def exampleMcpMetadata : MastraToolMetadata :=
  { type := .mcp, server := some "https://x", tool_name := some "search" }

/-- The document tool carrying `exampleMcpMetadata` under `_mastra_tool`. -/
def githubSearchTool : AfTool :=
  { name := "github_search"
    description := "Search GitHub repositories"
    type := .json_schema
    parameters := emptyParameters
    metadata := some { mastra_tool := some exampleMcpMetadata } }

/-- The host agent holding the tool produced by importing
`githubSearchTool`, as an import → export round trip would. -/
def mcpRoundTripAgent : MastraAgentConfig :=
  { name := "MCP Agent"
    instructions := .str "Test"
    tools := some (.static [("github_search", convertMcpTool githubSearchTool exampleMcpMetadata)]) }

/-- The export of `mcpRoundTripAgent` (fixed clock, no environment
version). -/
def mcpRoundTripExported : AfExportResult :=
  exportMastraAgent mcpRoundTripAgent none {} "2024-01-01T00:00:00Z" none

/-- A host agent with dynamic (function-valued) instructions. -/
def dynInstructionsAgent : MastraAgentConfig :=
  { name := "Dynamic Agent", instructions := .func }

/-- A host tool with no input schema at all. -/
def noSchemaAction : ToolAction :=
  { id := "bare", description := some "No schema" }

/-! ## Helper lemmas -/

/-- The per-element non-negativity pass emits no issue exactly when every
index is non-negative, at any starting position. -/
theorem indexElementIssues_eq_nil (idxs : List Int) :
    ∀ i, indexElementIssues i idxs = [] ↔ ∀ idx ∈ idxs, 0 ≤ idx := by
  induction idxs with
  | nil => intro i; simp [indexElementIssues]
  | cons idx rest ih =>
    intro i
    simp only [indexElementIssues, List.append_eq_nil, List.mem_cons]
    constructor
    · rintro ⟨h1, h2⟩ x hx
      rcases hx with hx | hx
      · subst hx
        by_contra hneg
        rw [if_pos (by omega)] at h1
        exact List.cons_ne_nil _ _ h1
      · exact (ih (i + 1)).mp h2 x hx
    · intro h
      refine ⟨?_, (ih (i + 1)).mpr (fun x hx => h x (Or.inr hx))⟩
      rw [if_neg (by have := h idx (Or.inl rfl); omega)]

/-! ## Claims -/

/-- Claim C1: for every structurally valid document, `importAfAgent`
returns a result and never throws.  The code refutes this: the model shows
`importAfAgent` raising `ReferenceError: convertedTools is not defined`
(src/import.ts line 190) on every input whatsoever, so no warnings-based
result is ever produced. -/
theorem importAfAgent_always_raises_referenceError
    (afAgent : AfAgentDoc) (options : AfImportOptions) :
    importAfAgent afAgent options = Except.error (.referenceError "convertedTools") := rfl

/-- Witness for claim C1's theorem at the minimal valid document with
default options. -/
theorem importAfAgent_always_raises_referenceError_witness :
    importAfAgent minimalAgentDoc {} = Except.error (.referenceError "convertedTools") :=
  importAfAgent_always_raises_referenceError minimalAgentDoc {}

/-- Claim C2: importing a tool tagged
`{type:"mcp", server:"https://x", tool_name:"search"}` and exporting the
resulting host tool is supposed to reproduce the identical metadata object
under `_mastra_tool`.  The code refutes this: the exported object carries
the camelCase keys `convertMcpTool` introduced (`toolName` instead of
`tool_name`), so the serialized key lists differ — the value `"search"`
survives only under the renamed key. -/
theorem mcp_metadata_round_trip_renames_keys :
    mcpRoundTripExported.document.tools.map (fun t => t.metadata.map McpStoredMetadata.jsonKeys)
      = [some ["type", "server", "toolName"]] ∧
    exampleMcpMetadata.jsonKeys = ["type", "server", "tool_name"] ∧
    mcpRoundTripExported.document.tools.map (fun t => t.metadata.map McpStoredMetadata.jsonKeys)
      ≠ [some exampleMcpMetadata.jsonKeys] ∧
    mcpRoundTripExported.document.tools.map (fun t => t.metadata.bind (·.toolName))
      = [some "search"] := by
  refine ⟨rfl, rfl, ?_, rfl⟩
  decide

/-- Claim C3: document validation is supposed to accept `core_memory` both
as a mapping and as an ordered list, enforcing persona/human presence in
either representation.  The code refutes the list half: `z.record` rejects
an array outright (even one containing both required blocks), while the
mapping representation is accepted and does enforce the persona/human
check. -/
theorem core_memory_list_form_rejected :
    validateCoreMemory (.list [personaBlock, humanBlock])
      = [⟨["core_memory"], "Expected object, received array"⟩] ∧
    validateCoreMemory (.mapping [("persona", personaBlock), ("human", humanBlock)]) = [] ∧
    validateCoreMemory (.mapping [("persona", personaBlock)])
      = [⟨["core_memory"], "Core memory must contain at least persona and human blocks"⟩] := by
  exact ⟨rfl, rfl, rfl⟩

/-- Claim C4: for a validated document with non-empty core memory,
`importAfAgent` is supposed to key a working-memory entry per block.  The
code refutes this: on the mapping representation (the only one validation
accepts) the `core_memory.length` guard reads `undefined > 0`, so the
working memory is never populated — and the function then throws at line
190 regardless. -/
theorem validated_core_memory_never_reaches_working_memory
    (doc : AfAgentDoc) (entries : List (String × AfCoreMemoryBlock))
    (h : doc.core_memory = .mapping entries) :
    (buildMemoryConfig doc true).1.workingMemory = none ∧
    ∀ options, importAfAgent doc options = Except.error (.referenceError "convertedTools") := by
  constructor
  · unfold buildMemoryConfig
    rw [h]
    simp only [coreMemoryLengthPositive, if_false, Bool.false_eq_true]
    split <;> rfl
  · intro options; rfl

/-- Witness for claim C4's theorem at the minimal document. -/
theorem validated_core_memory_never_reaches_working_memory_witness :
    (buildMemoryConfig minimalAgentDoc true).1.workingMemory = none ∧
    importAfAgent minimalAgentDoc {} = Except.error (.referenceError "convertedTools") := by
  have h := validated_core_memory_never_reaches_working_memory minimalAgentDoc
    [("persona", personaBlock), ("human", humanBlock)] rfl
  exact ⟨h.1, h.2 {}⟩

/-- Claim C5: the validator is supposed to tolerate a tool rule's content
as either a string or a structured configuration object.  The code refutes
the object half: `toolRuleSchema` demands a non-empty `rule_content`
string, so the configuration-object shape (used by the repository's own
fixtures) fails validation while the string shape passes. -/
theorem tool_rule_configuration_object_rejected :
    validateToolRule
        { tool_name := "calculate", rule_type := "max_use"
          content := .configObject [("max_uses", "10")] }
      = [⟨["rule_content"], "Required"⟩] ∧
    validateToolRule
        { tool_name := "calculator", rule_type := "usage_limit"
          content := .ruleContentStr "max_calls_per_conversation: 10" }
      = [] := by
  exact ⟨rfl, rfl⟩

/-- Claim C9 (counterexample): the claim says every structured-object
working-memory entry contributes its value, character limit and metadata,
including an object whose `value` is the empty string.  At such an entry
the export instead takes the scalar branch: the block's value is the
stringification `"[object Object]"` and the limit and metadata are
dropped. -/
theorem working_memory_empty_value_object_stringified :
    convertWorkingMemoryToCore
        [("context", .objVal (some (.strV "")) (some 100) (some [("source", "import")]))]
      = [{ label := "context", value := "[object Object]" }] ∧
    ({ label := "context", value := "[object Object]" } : AfCoreMemoryBlock)
      ≠ { label := "context", value := "", character_limit := some 100
          metadata := some [("source", "import")] } := by
  exact ⟨rfl, by decide⟩

/-- Claim C9 (amended): every working-memory entry becomes a memory
block; an object entry with a present, truthy `value` contributes
value/characterLimit/metadata, while every other entry — bare scalars,
and objects whose `value` is absent or falsy — contributes only the
stringification of the entry. -/
theorem working_memory_export_amended (wm : List (String × WMEntry)) :
    convertWorkingMemoryToCore wm = wm.map amendedMemoryBlockSpec := by
  induction wm with
  | nil => rfl
  | cons kv rest ih =>
    rcases kv with ⟨label, data⟩
    rcases data with v | ⟨val, cl, md⟩
    · simpa [convertWorkingMemoryToCore, amendedMemoryBlockSpec] using ih
    · rcases val with _ | v <;>
        simpa [convertWorkingMemoryToCore, amendedMemoryBlockSpec] using ih

/-- Witness for claim C9's amended theorem at a two-entry working
memory: a structured entry with a truthy value and a bare scalar. -/
theorem working_memory_export_amended_witness :
    convertWorkingMemoryToCore
        [("personality", .objVal (some (.strV "Helpful assistant")) (some 500) none),
         ("context", .scalar (.strV "Test context"))]
      = [("personality", WMEntry.objVal (some (.strV "Helpful assistant")) (some 500) none),
         ("context", WMEntry.scalar (.strV "Test context"))].map amendedMemoryBlockSpec :=
  working_memory_export_amended
    [("personality", .objVal (some (.strV "Helpful assistant")) (some 500) none),
     ("context", .scalar (.strV "Test context"))]

/-- Claim C6 (counterexample): `[0, 5]` against 2 messages does fail
validation, but the reported failure is the fixed refinement issue at path
`in_context_message_indices` — neither its message nor its path mentions
the offending index `5`, so the failure does not identify the specific
out-of-range index as claimed. -/
theorem indices_error_does_not_name_offending_index :
    validateInContextIndices (some [0, 5]) 2 ≠ [] ∧
    (validateInContextIndices (some [0, 5]) 2).all
      (fun i => !(strHasSub i.message "5") && !(i.path.contains "5")) = true := by
  constructor
  · decide
  · decide

/-- Claim C6 (amended): a document passes the in-context-index check
exactly when every index satisfies `0 <= idx < len(messages)`; an
upper-bound violation is reported as the single generic issue at path
`in_context_message_indices`, without naming the offending index. -/
theorem in_context_indices_validation_amended :
    (∀ (idxs : List Int) (n : Nat),
      validateInContextIndices (some idxs) n = [] ↔
        ∀ idx ∈ idxs, 0 ≤ idx ∧ idx < (n : Int)) ∧
    (∀ (idxs : List Int) (n : Nat),
      (∀ idx ∈ idxs, 0 ≤ idx) → ¬(∀ idx ∈ idxs, idx < (n : Int)) →
      validateInContextIndices (some idxs) n =
        [⟨["in_context_message_indices"],
          "in_context_message_indices contains out-of-range message references"⟩]) := by
  constructor
  · intro idxs n
    simp only [validateInContextIndices]
    by_cases hE : indexElementIssues 0 idxs = []
    · have hpos := (indexElementIssues_eq_nil idxs 0).mp hE
      rw [hE]
      simp only [List.isEmpty_nil, if_true]
      cases hall : idxs.all (fun idx => decide (idx ≤ (n : Int) - 1)) with
      | true =>
        simp only [if_true, true_iff]
        intro idx hidx
        have := of_decide_eq_true (List.all_eq_true.mp hall idx hidx)
        exact ⟨hpos idx hidx, by omega⟩
      | false =>
        simp only [Bool.false_eq_true, if_false]
        constructor
        · intro h; exact absurd h (List.cons_ne_nil _ _)
        · intro h
          exfalso
          rw [Bool.eq_false_iff] at hall
          apply hall
          rw [List.all_eq_true]
          intro idx hidx
          exact decide_eq_true (by have := (h idx hidx).2; omega)
    · have hne : ¬ (indexElementIssues 0 idxs).isEmpty = true := by
        simpa [List.isEmpty_iff] using hE
      rw [if_neg hne]
      constructor
      · intro h; exact absurd h hE
      · intro h
        exfalso
        apply hE
        exact (indexElementIssues_eq_nil idxs 0).mpr (fun idx hidx => (h idx hidx).1)
  · intro idxs n hpos hbound
    simp only [validateInContextIndices]
    have hE : indexElementIssues 0 idxs = [] := (indexElementIssues_eq_nil idxs 0).mpr hpos
    rw [hE]
    simp only [List.isEmpty_nil, if_true]
    have hall : idxs.all (fun idx => decide (idx ≤ (n : Int) - 1)) = false := by
      rw [Bool.eq_false_iff]
      intro hall
      apply hbound
      intro idx hidx
      have := of_decide_eq_true (List.all_eq_true.mp hall idx hidx)
      omega
    rw [hall]
    rfl

/-- Witness for claim C6's amended theorem: `[0, 1]` against 2 messages
passes, `[0, 5]` against 2 messages yields exactly the generic issue. -/
theorem in_context_indices_validation_amended_witness :
    validateInContextIndices (some [0, 1]) 2 = [] ∧
    validateInContextIndices (some [0, 5]) 2 =
      [⟨["in_context_message_indices"],
        "in_context_message_indices contains out-of-range message references"⟩] := by
  constructor
  · exact (in_context_indices_validation_amended.1 [0, 1] 2).mpr (by decide)
  · exact in_context_indices_validation_amended.2 [0, 5] 2 (by decide) (by decide)

/-- Claim C7: a `python` or `javascript` tool whose `source_code` is
absent or empty fails validation with the issue at path `source_code`,
while a `json_schema` tool passes without `source_code` (given that the
rest of the tool is structurally valid, as the object-level refinement
only runs on a successful base parse). -/
theorem python_javascript_source_code_required :
    (∀ t : AfTool, validateToolBase t = [] →
      (t.type = .python ∨ t.type = .javascript) →
      (t.source_code = none ∨ t.source_code = some "") →
      validateTool t
        = [⟨["source_code"], "Source code is required for python and javascript tool types"⟩] ∧
      ∃ i ∈ validateTool t, "source_code" ∈ i.path) ∧
    (∀ t : AfTool, validateToolBase t = [] → t.type = .json_schema →
      validateTool t = []) := by
  constructor
  · intro t hbase htype hsrc
    have hviol : sourceCodeRuleViolated t = true := by
      unfold sourceCodeRuleViolated
      rcases htype with h | h <;> rw [h] <;>
        rcases hsrc with h2 | h2 <;> rw [h2] <;> rfl
    have hval : validateTool t
        = [⟨["source_code"], "Source code is required for python and javascript tool types"⟩] := by
      unfold validateTool
      rw [hbase, hviol]
      rfl
    refine ⟨hval, ⟨_, by rw [hval]; exact List.mem_singleton.mpr rfl, ?_⟩⟩
    simp
  · intro t hbase htype
    unfold validateTool
    rw [hbase]
    have hviol : sourceCodeRuleViolated t = false := by
      unfold sourceCodeRuleViolated
      rw [htype]
      rfl
    rw [hviol]
    rfl

/-- Witness for claim C7's theorem: the spec's `calc` python tool without
`source_code` fails with the `source_code` issue; the `lookup`
`json_schema` tool passes. -/
theorem python_javascript_source_code_required_witness :
    validateTool calcTool
      = [⟨["source_code"], "Source code is required for python and javascript tool types"⟩] ∧
    (∃ i ∈ validateTool calcTool, "source_code" ∈ i.path) ∧
    validateTool lookupTool = [] := by
  have h1 := python_javascript_source_code_required.1 calcTool rfl (Or.inl rfl) (Or.inl rfl)
  exact ⟨h1.1, h1.2, python_javascript_source_code_required.2 lookupTool rfl rfl⟩

/-- Claim C8: for a tool carrying source code (and no external metadata),
`skip` yields no host tool plus an info warning, `stub` yields a host tool
whose execute handler unconditionally throws the descriptive stub error
plus a warning, and `schema-only` — also what an absent option defaults
to — yields a host tool with the schema and no execute handler plus an
info warning. -/
theorem source_code_tool_strategies :
    (∀ t : AfTool, t.metadata.bind (·.mastra_tool) = none →
      ∀ src, t.source_code = some src → src ≠ "" →
      (convertTools [t] .skip =
        { tools := []
          warnings := [⟨s!"tools.{t.name}", s!"Tool with {t.type.wire} source code skipped",
            .info⟩] }) ∧
      (convertTools [t] .stub =
        { tools := [(t.name,
            { id := t.name
              description := some (t.description ++ " (stub - source code not imported)")
              inputSchema := some (createZodSchemaFromJsonSchema t.parameters)
              execute := some (.throwsError s!"Tool {t.name} is a stub - source code was not imported")
              mcpMetadata := none })]
          warnings := [⟨s!"tools.{t.name}", s!"Created stub for {t.type.wire} tool",
            .warning⟩] }) ∧
      (convertTools [t] .schemaOnly =
        { tools := [(t.name, convertSchemaOnlyTool t)]
          warnings := [⟨s!"tools.{t.name}", s!"Tool imported without {t.type.wire} source code",
            .info⟩] }) ∧
      (convertSchemaOnlyTool t).execute = none) ∧
    ({} : AfImportOptions).toolCodeStrategy.getD .schemaOnly = .schemaOnly := by
  constructor
  · intro t hmeta src hsrc hne
    have htruthy : jsTruthyOptStr t.source_code = true := by
      rw [hsrc]
      simpa [jsTruthyOptStr] using hne
    refine ⟨?_, ?_, ?_, rfl⟩ <;>
      simp [convertTools, hmeta, htruthy, handleSourceCodeTool, objSet, Option.toList]
  · rfl

/-- Witness for claim C8's theorem at a concrete python tool with source
code. -/
theorem source_code_tool_strategies_witness :
    convertTools [calculateTool] .skip =
      { tools := []
        warnings := [⟨"tools.calculate", "Tool with python source code skipped",
          Severity.info⟩] } ∧
    (convertSchemaOnlyTool calculateTool).execute = none := by
  have h := source_code_tool_strategies.1 calculateTool rfl
    "def calculate(expression): return eval(expression)" rfl (by decide)
  exact ⟨h.1, h.2.2.2⟩

/-- Claim C10: a Zod node of any type outside the seven handled cases is
emitted as `{type:"string"}`, a missing or non-Zod input schema becomes
the empty object schema, and the export's omitted-features list can only
ever mention the dynamic-instructions and dynamic-tools markers — so no
warning or omitted-features entry records the degradation. -/
theorem unrecognized_zod_types_degrade_silently :
    (∀ s, convertZodToJsonSchema (.other s) = .simple "string") ∧
    convertZodToJsonSchema .nonZod = .jobject .nil none ∧
    (∀ (name : String) (t : ToolAction), t.inputSchema = none →
      (convertMastraToolToAf name t).parameters = .jobject .nil none) ∧
    (∀ agent memory options now env,
      ∀ f ∈ (exportMastraAgent agent memory options now env).metadata.omittedFeatures,
        f = "dynamic_instructions" ∨ f = "dynamic_tools") := by
  refine ⟨fun s => rfl, rfl, ?_, ?_⟩
  · intro name t h
    simp [convertMastraToolToAf, h]
  · intro agent memory options now env f hf
    rcases agent with ⟨nm, instr, mdl, tls, md⟩
    cases instr <;> rcases tls with _ | (_ | ts) <;>
      simp [exportMastraAgent] at hf <;> tauto

/-- Witness for claim C10's theorem: a `ZodDate` node, a schema-less host
tool, and a member of the omitted-features list of an export with dynamic
instructions. -/
theorem unrecognized_zod_types_degrade_silently_witness :
    convertZodToJsonSchema (.other "ZodDate") = .simple "string" ∧
    (convertMastraToolToAf "bare" noSchemaAction).parameters = .jobject .nil none ∧
    ("dynamic_instructions" = "dynamic_instructions" ∨
      "dynamic_instructions" = "dynamic_tools") := by
  refine ⟨unrecognized_zod_types_degrade_silently.1 "ZodDate",
    unrecognized_zod_types_degrade_silently.2.2.1 "bare" noSchemaAction rfl,
    unrecognized_zod_types_degrade_silently.2.2.2 dynInstructionsAgent none {}
      "2024-01-01T00:00:00Z" none "dynamic_instructions" ?_⟩
  simp [exportMastraAgent, dynInstructionsAgent]

end AfMastra
